import Mathlib

/-!
Verification development for `generate-og-images.py`, a one-shot generator of
fixed-size Open Graph preview images.

Embedding conventions:
* Python floats are modelled by `ℚ` (every float value is a rational); the
  transcendental library functions `math.cos`, `math.sin` and the constant
  `math.pi` are abstracted as parameters `cosQ sinQ : ℚ → ℚ` and `pi : ℚ`,
  since their float results are unspecified rationals.
* `random.random()` is a global sequential stream of samples in `[0,1)`,
  modelled as a `List ℚ` that the grain loop consumes in raster order, or as
  an indexed source `ℕ → ℚ` in the image-level pipeline.
* Python `int(x)` truncates toward zero, modelled by `truncQ`.
* PIL images are modelled by `Img`: a width, a height and an RGBA pixel
  function.  `ImageDraw` primitives are reified as `DrawOp` values; their
  rasterisation (a PIL-internal concern, external to this repository) is an
  abstract parameter `renderOp : DrawOp → Img → Img` assumed to preserve
  dimensions, which is PIL's documented in-place drawing behaviour.
-/

/-- An RGB pixel, channels as unbounded integers (clamping is explicit). -/
abbrev Pix3 := ℤ × ℤ × ℤ

/-- An RGBA pixel. -/
abbrev Pix4 := ℤ × ℤ × ℤ × ℤ

/-- Python `int()` on a rational: truncation toward zero. -/
def truncQ (q : ℚ) : ℤ := if 0 ≤ q then ⌊q⌋ else ⌈q⌉

/-- `max(0, min(255, v))` from the grain loop. -/
def clamp255 (v : ℤ) : ℤ := max 0 (min 255 v)

/-- Brand colors table (`colors` dict in the source). -/
def colors_yellow : Pix3 := (255, 226, 39)

def colors_yellow_hover : Pix3 := (255, 216, 0)

def colors_dark : Pix3 := (26, 26, 26)

def colors_white : Pix3 := (255, 255, 255)

def colors_warm : Pix3 := (250, 249, 247)

def colors_cobalt : Pix3 := (0, 71, 171)

def colors_teal : Pix3 := (13, 115, 119)

/-- OG image width (`WIDTH = 1200`). -/
def WIDTH : ℕ := 1200

/-- OG image height (`HEIGHT = 630`). -/
def HEIGHT : ℕ := 630

/-- One iteration of the body of the `add_grain_texture` pixel loop: a single
noise sample `rand` is drawn for the pixel and added to all three channels,
each clamped to `[0,255]`.  `noise = int((rand - 0.5) * 255 * intensity)`. -/
def grainPixel (intensity : ℚ) (rand : ℚ) (p : Pix3) : Pix3 :=
  let noise := truncQ ((rand - 1/2) * 255 * intensity)
  (clamp255 (p.1 + noise), clamp255 (p.2.1 + noise), clamp255 (p.2.2 + noise))

/-- The inner `for x` loop of `add_grain_texture` over one row of pixels,
consuming one random sample per pixel from the stream `rs`. -/
def grainRow (intensity : ℚ) : List Pix3 → List ℚ → List Pix3
  | [], _ => []
  | p :: ps, rs => grainPixel intensity (rs.headD 0) p :: grainRow intensity ps rs.tail

/-- `add_grain_texture(img, intensity)`: the outer `for y` loop, threading the
global random stream through the rows in raster order. -/
def add_grain_texture (intensity : ℚ) : List (List Pix3) → List ℚ → List (List Pix3)
  | [], _ => []
  | row :: rows, rs =>
      grainRow intensity row rs :: add_grain_texture intensity rows (rs.drop row.length)

/-- Modelled from the spec (claim C2's formula, for comparison with the code):
`channel' = clamp(channel + round((rand()-0.5)·255·intensity), 0, 255)` with an
independent noise sample for each channel, so three samples per pixel. -/
def grainPixelSpec (intensity : ℚ) (r1 r2 r3 : ℚ) (p : Pix3) : Pix3 :=
  ( clamp255 (p.1 + round ((r1 - 1/2) * 255 * intensity)),
    clamp255 (p.2.1 + round ((r2 - 1/2) * 255 * intensity)),
    clamp255 (p.2.2 + round ((r3 - 1/2) * 255 * intensity)) )

/-- Modelled from the spec: the row loop under claim C2's reading, consuming
three random samples per pixel. -/
def grainRowSpec (intensity : ℚ) : List Pix3 → List ℚ → List Pix3
  | [], _ => []
  | p :: ps, rs =>
      grainPixelSpec intensity (rs.headD 0) (rs.tail.headD 0) (rs.tail.tail.headD 0) p ::
        grainRowSpec intensity ps (rs.drop 3)

/-- Modelled from the spec: the whole-image grain under claim C2's reading. -/
def add_grain_texture_spec (intensity : ℚ) : List (List Pix3) → List ℚ → List (List Pix3)
  | [], _ => []
  | row :: rows, rs =>
      grainRowSpec intensity row rs :: add_grain_texture_spec intensity rows (rs.drop (3 * row.length))

lemma clamp255_nonneg (v : ℤ) : 0 ≤ clamp255 v := le_max_left 0 _

lemma clamp255_le (v : ℤ) : clamp255 v ≤ 255 := by
  unfold clamp255
  have h : min 255 v ≤ 255 := min_le_left _ _
  omega

lemma grainPixel_mem_range (intensity rand : ℚ) (p : Pix3) :
    0 ≤ (grainPixel intensity rand p).1 ∧ (grainPixel intensity rand p).1 ≤ 255 ∧
    0 ≤ (grainPixel intensity rand p).2.1 ∧ (grainPixel intensity rand p).2.1 ≤ 255 ∧
    0 ≤ (grainPixel intensity rand p).2.2 ∧ (grainPixel intensity rand p).2.2 ≤ 255 := by
  unfold grainPixel
  exact ⟨clamp255_nonneg _, clamp255_le _, clamp255_nonneg _, clamp255_le _,
    clamp255_nonneg _, clamp255_le _⟩

lemma grainRow_mem_range (intensity : ℚ) (row : List Pix3) (rs : List ℚ) :
    ∀ p ∈ grainRow intensity row rs,
      0 ≤ p.1 ∧ p.1 ≤ 255 ∧ 0 ≤ p.2.1 ∧ p.2.1 ≤ 255 ∧ 0 ≤ p.2.2 ∧ p.2.2 ≤ 255 := by
  induction row generalizing rs with
  | nil => intro p hp; simp [grainRow] at hp
  | cons q qs ih =>
      intro p hp
      simp only [grainRow, List.mem_cons] at hp
      rcases hp with h | h
      · subst h; exact grainPixel_mem_range _ _ _
      · exact ih rs.tail p h

/-- C1 — For every input raster, every pixel position, and every intensity in
(0,1], each channel value produced by `add_grain_texture` lies within
`[0,255]`, regardless of the input channel value. -/
theorem add_grain_texture_channels_in_range (intensity : ℚ)
    (h0 : 0 < intensity) (h1 : intensity ≤ 1)
    (img : List (List Pix3)) (rs : List ℚ) :
    ∀ row ∈ add_grain_texture intensity img rs, ∀ p ∈ row,
      0 ≤ p.1 ∧ p.1 ≤ 255 ∧ 0 ≤ p.2.1 ∧ p.2.1 ≤ 255 ∧ 0 ≤ p.2.2 ∧ p.2.2 ≤ 255 := by
  induction img generalizing rs with
  | nil => intro row hrow; simp [add_grain_texture] at hrow
  | cons r rows ih =>
      intro row hrow
      simp only [add_grain_texture, List.mem_cons] at hrow
      rcases hrow with h | h
      · subst h; exact grainRow_mem_range intensity r rs
      · exact ih (rs.drop r.length) row h

/-- Witness for C1 at a concrete raster, stream and intensity. -/
theorem add_grain_texture_channels_in_range_witness :
    0 < (12/100 : ℚ) ∧ (12/100 : ℚ) ≤ 1 ∧
      ∀ p ∈ (add_grain_texture (12/100) [[((300 : ℤ), -7, 100)]] [9/10]).headD [],
        0 ≤ p.1 ∧ p.1 ≤ 255 ∧ 0 ≤ p.2.1 ∧ p.2.1 ≤ 255 ∧ 0 ≤ p.2.2 ∧ p.2.2 ≤ 255 := by
  refine ⟨by norm_num, by norm_num, ?_⟩
  intro p hp
  exact add_grain_texture_channels_in_range (12/100) (by norm_num) (by norm_num)
    [[((300 : ℤ), -7, 100)]] [9/10]
    ((add_grain_texture (12/100) [[((300 : ℤ), -7, 100)]] [9/10]).headD [])
    (by simp [add_grain_texture]) p hp

lemma grainRow_get? (i : ℚ) (row : List Pix3) (rs : List ℚ) (x : ℕ) :
    (grainRow i row rs).get? x = (row.get? x).map (grainPixel i ((rs.drop x).headD 0)) := by
  induction row generalizing rs x with
  | nil => simp [grainRow]
  | cons p ps ih =>
      cases x with
      | zero => simp [grainRow]
      | succ x =>
          simp only [grainRow, List.get?_cons_succ]
          rw [ih rs.tail x, ← List.drop_one, List.drop_drop, Nat.add_comm]

/-- C2 (amended) — For a rectangular raster of row width `w`, the pixel at
`(x, y)` of the grain output is `grainPixel` applied to the input pixel and
the single random sample at raster index `y*w + x`: the noise is
`int((rand-0.5)·255·intensity)` (truncation toward zero), computed once per
pixel and shared by the R, G and B channels, each clamped to `[0,255]`. -/
theorem add_grain_texture_pixel_formula (i : ℚ) (rows : List (List Pix3)) (rs : List ℚ)
    (w y x : ℕ) (hw : ∀ row ∈ rows, row.length = w) :
    ((add_grain_texture i rows rs).get? y).bind (fun row => row.get? x) =
      ((rows.get? y).bind (fun row => row.get? x)).map
        (grainPixel i ((rs.drop (y * w + x)).headD 0)) := by
  induction rows generalizing rs y with
  | nil => simp [add_grain_texture]
  | cons row rows ih =>
      cases y with
      | zero =>
          simpa [add_grain_texture] using grainRow_get? i row rs x
      | succ y =>
          simp only [add_grain_texture, List.get?_cons_succ]
          rw [ih (rs.drop row.length) y (fun r hr => hw r (List.mem_cons_of_mem _ hr)),
            List.drop_drop, hw row (List.mem_cons_self _ _)]
          congr 3
          ring

/-- Witness for the amended C2 at a concrete 2×2 raster and stream. -/
theorem add_grain_texture_pixel_formula_witness :
    (∀ row ∈ [[((10 : ℤ), 20, 30), ((40 : ℤ), 50, 60)],
              [((70 : ℤ), 80, 90), ((100 : ℤ), 110, 120)]], row.length = 2) ∧
    ((add_grain_texture (3/25)
        [[((10 : ℤ), 20, 30), ((40 : ℤ), 50, 60)],
         [((70 : ℤ), 80, 90), ((100 : ℤ), 110, 120)]]
        [0, 1/4, 1/2, 3/4]).get? 1).bind (fun row => row.get? 0) =
      (([[((10 : ℤ), 20, 30), ((40 : ℤ), 50, 60)],
         [((70 : ℤ), 80, 90), ((100 : ℤ), 110, 120)]].get? 1).bind
          (fun row => row.get? 0)).map
        (grainPixel (3/25) (([(0 : ℚ), 1/4, 1/2, 3/4].drop (1 * 2 + 0)).headD 0)) := by
  refine ⟨by simp, ?_⟩
  exact add_grain_texture_pixel_formula (3/25)
    [[((10 : ℤ), 20, 30), ((40 : ℤ), 50, 60)],
     [((70 : ℤ), 80, 90), ((100 : ℤ), 110, 120)]]
    [0, 1/4, 1/2, 3/4] 2 1 0 (by simp)

/-- C2 (counterexample) — On the 1×1 raster `[(100,100,100)]` with random
stream `[9/10, 1/10, 1/2]` and intensity `0.12`, the code's grain (one
truncated noise sample shared by all three channels, giving `(112,112,112)`)
differs from the claim's formula (an independent rounded sample per channel,
giving `(112,88,100)`). -/
theorem add_grain_texture_not_per_channel :
    add_grain_texture (3/25) [[((100 : ℤ), 100, 100)]] [9/10, 1/10, 1/2] ≠
      add_grain_texture_spec (3/25) [[((100 : ℤ), 100, 100)]] [9/10, 1/10, 1/2] := by
  have hcode : add_grain_texture (3/25) [[((100 : ℤ), 100, 100)]] [9/10, 1/10, 1/2] =
      [[(112, 112, 112)]] := by
    norm_num [add_grain_texture, grainRow, grainPixel, truncQ, clamp255]
  have hspec : add_grain_texture_spec (3/25) [[((100 : ℤ), 100, 100)]] [9/10, 1/10, 1/2] =
      [[(112, 88, 100)]] := by
    norm_num [add_grain_texture_spec, grainRowSpec, grainPixelSpec, round_eq, clamp255]
  rw [hcode, hspec]
  decide

/-- A PIL font handle: either a loaded truetype font or the built-in default
(`ImageFont.load_default()`). -/
inductive Font where
  | truetype (path : String) (size : ℤ)
  | default
deriving DecidableEq

/-- A reified `ImageDraw` primitive call. -/
inductive DrawOp where
  | line (points : List (ℚ × ℚ)) (fill : Pix4) (width : ℕ)
  | ellipse (box : (ℚ × ℚ) × (ℚ × ℚ)) (outline : Pix4) (width : ℕ)
  | rectangle (box : (ℚ × ℚ) × (ℚ × ℚ)) (fill : Pix4)
  | text (pos : ℚ × ℚ) (s : String) (fill : Pix4) (font : Font)
deriving DecidableEq

/-- `color + (a,)`: attach an explicit alpha to an RGB tuple. -/
def rgba (c : Pix3) (a : ℤ) : Pix4 := (c.1, c.2.1, c.2.2, a)

/-- An RGB fill used as-is (PIL treats it as opaque). -/
def rgb (c : Pix3) : Pix4 := rgba c 255

/-- Python `range(start, stop, step)` for a positive step. -/
def pyRange (start stop step : ℕ) : List ℕ :=
  (List.range ((stop - start + step - 1) / step)).map (fun k => start + step * k)

/-- `draw_chromatic_text(draw, text, x, y, font, accent_color)`: the three
`draw.text` calls it issues, in order. -/
def draw_chromatic_text (text : String) (x y : ℚ) (font : Font) (accent_color : Pix3) :
    List DrawOp :=
  let offset : ℚ := 3
  [ DrawOp.text (x - offset, y) text (rgba colors_cobalt 80) font,
    DrawOp.text (x + offset, y) text (rgba accent_color 80) font,
    DrawOp.text (x, y) text (rgb colors_dark) font ]

/-- `draw_mathematical_grid(draw, width, height, opacity=20)`: vertical then
horizontal grid lines at 40px spacing. -/
def draw_mathematical_grid (width height : ℕ) (opacity : ℤ) : List DrawOp :=
  let spacing := 40
  let grid_color := rgba colors_dark opacity
  ((pyRange 0 width spacing).map fun x =>
      DrawOp.line [((x : ℚ), 0), ((x : ℚ), (height : ℚ))] grid_color 1) ++
  ((pyRange 0 height spacing).map fun y =>
      DrawOp.line [(0, (y : ℚ)), ((width : ℚ), (y : ℚ))] grid_color 1)

/-- The spiral `while` loop of `draw_mathematical_pattern`, instrumented to
keep each iteration's `radius` alongside the point it appends.  `fuel` bounds
the number of iterations (the Python loop always terminates because the angle
increases by 0.1 each pass, so any fuel of at least `10·limit` is exact). -/
def spiralPointsAux (cosQ sinQ : ℚ → ℚ) (limit cx cy : ℚ) : ℕ → ℚ → List (ℚ × ℚ × ℚ)
  | 0, _ => []
  | fuel + 1, angle =>
      if angle < limit then
        let radius := 15/100 * angle * 15
        if 300 < radius then []
        else (radius, cx + radius * cosQ angle, cy + radius * sinQ angle) ::
          spiralPointsAux cosQ sinQ limit cx cy fuel (angle + 1/10)
      else []

/-- `draw_mathematical_pattern(draw, width, height, accent_color, pattern)`:
the primitive calls each pattern branch issues. -/
def draw_mathematical_pattern (cosQ sinQ : ℚ → ℚ) (pi : ℚ) (fuel : ℕ)
    (width height : ℕ) (accent_color : Pix3) (pattern : String) : List DrawOp :=
  let line_color := rgba accent_color 60
  if pattern = "circles" then
    let center_x : ℚ := (width : ℚ) - 100
    let center_y : ℚ := (height : ℚ) - 100
    (pyRange 50 400 50).map fun r =>
      DrawOp.ellipse ((center_x - r, center_y - r), (center_x + r, center_y + r)) line_color 2
  else if pattern = "spiral" then
    let center_x : ℚ := (width : ℚ) - 150
    let center_y : ℚ := (height : ℚ) - 150
    let points := spiralPointsAux cosQ sinQ (pi * 8) center_x center_y fuel 0
    if 1 < points.length then
      [DrawOp.line (points.map fun t => (t.2.1, t.2.2)) line_color 2]
    else []
  else if pattern = "waves" then
    (List.range 3).filterMap fun offset_mult =>
      let points := (pyRange 0 width 5).map fun x =>
        ((x : ℚ), (height : ℚ) - 150 + sinQ (((x : ℚ) + offset_mult * 100) / 60) * 80)
      if 1 < points.length then some (DrawOp.line points line_color 2) else none
  else if pattern = "geometric" then
    let center_x : ℚ := (width : ℚ) - 250
    let center_y : ℚ := (height : ℚ) - 250
    let size : ℚ := 120
    let points := (List.range 7).map fun i =>
      let angle := (pi / 3) * i
      (center_x + size * cosQ angle, center_y + size * sinQ angle)
    [DrawOp.line points line_color 2]
  else []

/-- C7 — The chromatic text effect draws the title exactly three times: at
`x−3` in cobalt `(0,71,171)` with alpha 80, at `x+3` in the accent color with
alpha 80, and at the true position in solid dark `(26,26,26)`, in that order. -/
theorem draw_chromatic_text_three_passes (text : String) (x y : ℚ) (font : Font)
    (accent : Pix3) :
    draw_chromatic_text text x y font accent =
      [ DrawOp.text (x - 3, y) text (0, 71, 171, 80) font,
        DrawOp.text (x + 3, y) text (accent.1, accent.2.1, accent.2.2, 80) font,
        DrawOp.text (x, y) text (26, 26, 26, 255) font ] := rfl

lemma pyRange_50_400_50 : pyRange 50 400 50 = [50, 100, 150, 200, 250, 300, 350] := by
  decide

/-- C8 (counterexample) — `range(50, 400, 50)` stops at 350: the circles
pattern never draws the radius-400 ring.  At the concrete canvas 1200×630
with the yellow accent, the radius-400 ellipse is not among the drawn ops. -/
theorem circles_no_radius_400_ring :
    DrawOp.ellipse ((1100 - 400, 530 - 400), (1100 + 400, 530 + 400))
        (rgba colors_yellow 60) 2 ∉
      draw_mathematical_pattern (fun _ => 0) (fun _ => 0) (314159/100000) 1000
        1200 630 colors_yellow "circles" := by
  intro hmem
  simp only [draw_mathematical_pattern, pyRange_50_400_50, List.mem_map, if_true,
    eq_self_iff_true, if_pos] at hmem
  obtain ⟨r, hr, heq⟩ := hmem
  simp at hr
  rcases hr with rfl | rfl | rfl | rfl | rfl | rfl | rfl <;>
    norm_num [DrawOp.ellipse.injEq, Prod.mk.injEq] at heq

/-- C8 (amended) — The circles pattern draws exactly the concentric rings of
radii 50, 100, ..., 350 (`range(50, 400, 50)` excludes 400), centered at
`(width−100, height−100)`, each stroked with the accent color at alpha 60 and
width 2. -/
theorem circles_rings_spec (cosQ sinQ : ℚ → ℚ) (pi : ℚ) (fuel : ℕ)
    (width height : ℕ) (accent : Pix3) :
    draw_mathematical_pattern cosQ sinQ pi fuel width height accent "circles" =
      ([50, 100, 150, 200, 250, 300, 350] : List ℕ).map (fun r =>
        DrawOp.ellipse (((width : ℚ) - 100 - r, (height : ℚ) - 100 - r),
                        ((width : ℚ) - 100 + r, (height : ℚ) - 100 + r))
          (rgba accent 60) 2) := by
  simp [draw_mathematical_pattern, pyRange_50_400_50]

lemma spiralPointsAux_radius_le (cosQ sinQ : ℚ → ℚ) (limit cx cy : ℚ) :
    ∀ (fuel : ℕ) (angle : ℚ), ∀ t ∈ spiralPointsAux cosQ sinQ limit cx cy fuel angle,
      t.1 ≤ 300 := by
  intro fuel
  induction fuel with
  | zero => intro angle t ht; simp [spiralPointsAux] at ht
  | succ fuel ih =>
      intro angle t ht
      simp only [spiralPointsAux] at ht
      split at ht
      · split at ht
        · simp at ht
        · rename_i hrad
          rcases List.mem_cons.mp ht with h | h
          · subst h; exact le_of_not_lt hrad
          · exact ih _ t h
      · simp at ht

/-- C4 — For the spiral sampled at angle step 0.1 rad up to `8π` with
`radius = 0.15·angle·15`, every generated point's radius is at most the cap
300, and the polyline has at least 2 points (for any fuel covering at least
two loop iterations and any rational standing for `math.pi`). -/
theorem spiral_radius_capped_and_two_points (cosQ sinQ : ℚ → ℚ) (pi cx cy : ℚ)
    (fuel : ℕ) (hpi1 : 157/50 < pi) (hpi2 : pi < 63/20) (hfuel : 2 ≤ fuel) :
    (∀ t ∈ spiralPointsAux cosQ sinQ (pi * 8) cx cy fuel 0, t.1 ≤ 300) ∧
      2 ≤ (spiralPointsAux cosQ sinQ (pi * 8) cx cy fuel 0).length := by
  refine ⟨spiralPointsAux_radius_le cosQ sinQ (pi * 8) cx cy fuel 0, ?_⟩
  obtain ⟨f, rfl⟩ : ∃ f, fuel = f + 2 := ⟨fuel - 2, by omega⟩
  have h0 : (0 : ℚ) < pi * 8 := by nlinarith
  have h1 : (0 + 1/10 : ℚ) < pi * 8 := by nlinarith
  have hr0 : ¬ (300 : ℚ) < 15/100 * 0 * 15 := by norm_num
  have hr1 : ¬ (300 : ℚ) < 15/100 * (0 + 1/10) * 15 := by norm_num
  simp only [spiralPointsAux, if_pos h0, if_neg hr0, if_pos h1, if_neg hr1,
    List.length_cons]
  omega

/-- Witness for C4 at `pi = 3.14159`, fuel 2, zero trig stubs and the
spiral's actual center for the 1200×630 canvas. -/
theorem spiral_radius_capped_and_two_points_witness :
    (157/50 : ℚ) < 314159/100000 ∧ (314159/100000 : ℚ) < 63/20 ∧ 2 ≤ 2 ∧
      2 ≤ (spiralPointsAux (fun _ => 0) (fun _ => 0) ((314159/100000) * 8)
            1050 480 2 0).length := by
  refine ⟨by norm_num, by norm_num, le_refl 2, ?_⟩
  exact (spiral_radius_capped_and_two_points (fun _ => 0) (fun _ => 0)
    (314159/100000) 1050 480 2 (by norm_num) (by norm_num) (le_refl 2)).2

/-- A PIL image, mode-erased: a width, a height and an RGBA-valued pixel
function (RGB images carry alpha 255). -/
structure Img where
  width : ℕ
  height : ℕ
  pix : ℕ → ℕ → Pix4

/-- `Image.new('RGB', (w, h), color)`. -/
def imageNewRGB (w h : ℕ) (c : Pix3) : Img := ⟨w, h, fun _ _ => rgb c⟩

/-- `Image.new('RGBA', (w, h), color)`. -/
def imageNewRGBA (w h : ℕ) (c : Pix4) : Img := ⟨w, h, fun _ _ => c⟩

/-- `img.convert('RGBA')`: alpha is already explicit in this model. -/
def convertRGBA (i : Img) : Img := i

/-- `img.convert('RGB')`: drop the alpha channel (it reads back as 255). -/
def convertRGB (i : Img) : Img :=
  { i with pix := fun x y =>
      let p := i.pix x y
      (p.1, p.2.1, p.2.2.1, 255) }

/-- One pixel of PIL `Image.alpha_composite`: source-over blending of the top
pixel `q` onto the bottom pixel `p`, channels rounded back to integers. -/
def overPixel (p q : Pix4) : Pix4 :=
  let a1 : ℚ := p.2.2.2
  let a2 : ℚ := q.2.2.2
  let ao : ℚ := a2 + a1 * (255 - a2) / 255
  let ch : ℚ → ℚ → ℚ := fun c1 c2 =>
    if ao = 0 then 0 else (c2 * a2 + c1 * a1 * (255 - a2) / 255) / ao
  (round (ch p.1 q.1), round (ch p.2.1 q.2.1), round (ch p.2.2.1 q.2.2.1), round ao)

/-- `Image.alpha_composite(im1, im2)`: `im2` over `im1`, pixelwise. -/
def alpha_composite (im1 im2 : Img) : Img :=
  { width := im1.width, height := im1.height,
    pix := fun x y => overPixel (im1.pix x y) (im2.pix x y) }

/-- Issue a list of `ImageDraw` primitives, in order, through the abstract
rasterizer `renderOp` (PIL draws in place on the target image). -/
def applyOps (renderOp : DrawOp → Img → Img) (img : Img) (ops : List DrawOp) : Img :=
  ops.foldl (fun i op => renderOp op i) img

/-- Image-level `add_grain_texture`: the same per-pixel formula as the row
loop, with the global random stream indexed in raster order `y·width + x`. -/
def add_grain_texture_fn (img : Img) (rng : ℕ → ℚ) (intensity : ℚ) : Img :=
  { img with pix := fun x y =>
      let p := img.pix x y
      let t := grainPixel intensity (rng (y * img.width + x)) (p.1, p.2.1, p.2.2.1)
      (t.1, t.2.1, t.2.2, 255) }

/-- One entry of the `pages` configuration list. -/
structure Config where
  title : String
  subtitle : Option String
  accent_color : Pix3
  background_color : Pix3
  pattern : String
  title_size : ℤ
  output_path : String

def dejavuBoldPath : String := "/usr/share/fonts/truetype/dejavu/DejaVuSans-Bold.ttf"

def dejavuPath : String := "/usr/share/fonts/truetype/dejavu/DejaVuSans.ttf"

/-- The `try/except` font loading of `generate_og_image`: when the truetype
paths load, the three truetype fonts; on any failure, the built-in default
font for all three (the exception is swallowed, never propagated). -/
def loadFonts (fontsAvailable : Bool) (title_size : ℤ) : Font × Font × Font :=
  if fontsAvailable then
    (Font.truetype dejavuBoldPath title_size,
     Font.truetype dejavuPath 36,
     Font.truetype dejavuPath 32)
  else (Font.default, Font.default, Font.default)

/-- The title layer's draw calls: chromatic text at `(80, title_y)` with
`title_y = 120`. -/
def titleLayerOps (fontsAvailable : Bool) (cfg : Config) : List DrawOp :=
  draw_chromatic_text cfg.title 80 120 (loadFonts fontsAvailable cfg.title_size).1
    cfg.accent_color

/-- The subtitle layer's draw call: text at `(80, subtitle_y)` with
`subtitle_y = title_y + title_size + 30`, semi-transparent dark. -/
def subtitleLayerOps (fontsAvailable : Bool) (cfg : Config) (s : String) : List DrawOp :=
  [DrawOp.text (80, 120 + (cfg.title_size : ℚ) + 30) s (rgba colors_dark 150)
    (loadFonts fontsAvailable cfg.title_size).2.1]

/-- The domain layer's draw call: `bensiverly.com` at `(80, HEIGHT − 100)`. -/
def domainLayerOps (fontsAvailable : Bool) (cfg : Config) : List DrawOp :=
  [DrawOp.text (80, (HEIGHT : ℚ) - 100) "bensiverly.com" (rgba colors_dark 130)
    (loadFonts fontsAvailable cfg.title_size).2.2]

section Pipeline

variable (renderOp : DrawOp → Img → Img) (cosQ sinQ : ℚ → ℚ) (pi : ℚ) (fuel : ℕ)
variable (fontsAvailable : Bool)

/-- `img = Image.new('RGB', (WIDTH, HEIGHT), config['background_color'])`. -/
def base_img (cfg : Config) : Img := imageNewRGB WIDTH HEIGHT cfg.background_color

/-- The transparent overlay after the grid and the pattern are drawn on it. -/
def overlay_drawn (cfg : Config) : Img :=
  applyOps renderOp (imageNewRGBA WIDTH HEIGHT (0, 0, 0, 0))
    (draw_mathematical_grid WIDTH HEIGHT 20 ++
      draw_mathematical_pattern cosQ sinQ pi fuel WIDTH HEIGHT cfg.accent_color cfg.pattern)

/-- `img = Image.alpha_composite(img.convert('RGBA'), overlay).convert('RGB')`. -/
def img_after_overlay (cfg : Config) : Img :=
  convertRGB (alpha_composite (convertRGBA (base_img cfg))
    (overlay_drawn renderOp cosQ sinQ pi fuel cfg))

/-- The image after `draw.rectangle([0, 0, WIDTH, 8], fill=accent)`. -/
def img_after_bar (cfg : Config) : Img :=
  applyOps renderOp (img_after_overlay renderOp cosQ sinQ pi fuel cfg)
    [DrawOp.rectangle ((0, 0), ((WIDTH : ℚ), 8)) (rgb cfg.accent_color)]

/-- The transparent `text_layer` after `draw_chromatic_text`. -/
def title_layer (cfg : Config) : Img :=
  applyOps renderOp (imageNewRGBA WIDTH HEIGHT (0, 0, 0, 0))
    (titleLayerOps fontsAvailable cfg)

/-- The composite of the title layer onto the accumulating image. -/
def img_after_title (cfg : Config) : Img :=
  convertRGB (alpha_composite (convertRGBA (img_after_bar renderOp cosQ sinQ pi fuel cfg))
    (title_layer renderOp fontsAvailable cfg))

/-- The transparent `subtitle_layer` for subtitle text `s`. -/
def subtitle_layer (cfg : Config) (s : String) : Img :=
  applyOps renderOp (imageNewRGBA WIDTH HEIGHT (0, 0, 0, 0))
    (subtitleLayerOps fontsAvailable cfg s)

/-- The image after the optional subtitle branch (`if config.get('subtitle')`):
with a subtitle, the subtitle layer is composited; without one, the image from
the title stage passes through unchanged. -/
def img_after_subtitle (cfg : Config) : Img :=
  match cfg.subtitle with
  | some s =>
      convertRGB (alpha_composite
        (convertRGBA (img_after_title renderOp cosQ sinQ pi fuel fontsAvailable cfg))
        (subtitle_layer renderOp fontsAvailable cfg s))
  | none => img_after_title renderOp cosQ sinQ pi fuel fontsAvailable cfg

/-- `draw.rectangle([80, domain_y-45, 120, domain_y-5], ...)` at line 174 goes
through the `draw` handle created on the pre-text-composite image object; by
then `img` has been rebound twice, so this drawing mutates a stale object that
nothing reads afterwards and never reaches the output. -/
def stale_square_draw (cfg : Config) : Img :=
  applyOps renderOp (img_after_bar renderOp cosQ sinQ pi fuel cfg)
    [DrawOp.rectangle ((80, (HEIGHT : ℚ) - 100 - 45), (120, (HEIGHT : ℚ) - 100 - 5))
      (rgb cfg.accent_color)]

/-- The transparent `domain_layer`. -/
def domain_layer (cfg : Config) : Img :=
  applyOps renderOp (imageNewRGBA WIDTH HEIGHT (0, 0, 0, 0))
    (domainLayerOps fontsAvailable cfg)

/-- The composite of the domain layer: the last image before grain. -/
def img_after_domain (cfg : Config) : Img :=
  convertRGB (alpha_composite
    (convertRGBA (img_after_subtitle renderOp cosQ sinQ pi fuel fontsAvailable cfg))
    (domain_layer renderOp fontsAvailable cfg))

/-- `generate_og_image(config)`: the saved image, i.e. grain applied to the
last composite with intensity 0.12. -/
def generate_og_image (cfg : Config) (rng : ℕ → ℚ) : Img :=
  add_grain_texture_fn (img_after_domain renderOp cosQ sinQ pi fuel fontsAvailable cfg)
    rng (12/100)

/-- Every image value the pipeline constructs, in program order; the grain
output is last. -/
def generateStages (cfg : Config) (rng : ℕ → ℚ) : List Img :=
  ([ base_img cfg,
     overlay_drawn renderOp cosQ sinQ pi fuel cfg,
     img_after_overlay renderOp cosQ sinQ pi fuel cfg,
     img_after_bar renderOp cosQ sinQ pi fuel cfg,
     title_layer renderOp fontsAvailable cfg,
     img_after_title renderOp cosQ sinQ pi fuel fontsAvailable cfg ] ++
   (match cfg.subtitle with
    | some s =>
        [ subtitle_layer renderOp fontsAvailable cfg s,
          img_after_subtitle renderOp cosQ sinQ pi fuel fontsAvailable cfg ]
    | none => []) ++
   [ stale_square_draw renderOp cosQ sinQ pi fuel cfg,
     domain_layer renderOp fontsAvailable cfg,
     img_after_domain renderOp cosQ sinQ pi fuel fontsAvailable cfg ]) ++
  [ generate_og_image renderOp cosQ sinQ pi fuel fontsAvailable cfg rng ]

/-- The `generate_og_image` pipeline with the subtitle branch deleted, for
comparison in C9: the domain composite builds directly on the title stage. -/
def generate_og_image_no_subtitle_branch (cfg : Config) (rng : ℕ → ℚ) : Img :=
  add_grain_texture_fn
    (convertRGB (alpha_composite
      (convertRGBA (img_after_title renderOp cosQ sinQ pi fuel fontsAvailable cfg))
      (domain_layer renderOp fontsAvailable cfg)))
    rng (12/100)

end Pipeline

lemma applyOps_cons (renderOp : DrawOp → Img → Img) (img : Img) (op : DrawOp)
    (ops : List DrawOp) :
    applyOps renderOp img (op :: ops) = applyOps renderOp (renderOp op img) ops := rfl

lemma applyOps_dims (renderOp : DrawOp → Img → Img)
    (h : ∀ op i, (renderOp op i).width = i.width ∧ (renderOp op i).height = i.height)
    (ops : List DrawOp) (img : Img) :
    (applyOps renderOp img ops).width = img.width ∧
      (applyOps renderOp img ops).height = img.height := by
  induction ops generalizing img with
  | nil => exact ⟨rfl, rfl⟩
  | cons op ops ih =>
      rw [applyOps_cons]
      exact ⟨(ih (renderOp op img)).1.trans (h op img).1,
        (ih (renderOp op img)).2.trans (h op img).2⟩

lemma generateStages_dims (renderOp : DrawOp → Img → Img) (cosQ sinQ : ℚ → ℚ)
    (pi : ℚ) (fuel : ℕ) (fontsAvailable : Bool) (cfg : Config) (rng : ℕ → ℚ)
    (h : ∀ op i, (renderOp op i).width = i.width ∧ (renderOp op i).height = i.height) :
    ∀ img ∈ generateStages renderOp cosQ sinQ pi fuel fontsAvailable cfg rng,
      img.width = 1200 ∧ img.height = 630 := by
  have hover0 := applyOps_dims renderOp h
    (draw_mathematical_grid WIDTH HEIGHT 20 ++
      draw_mathematical_pattern cosQ sinQ pi fuel WIDTH HEIGHT cfg.accent_color cfg.pattern)
    (imageNewRGBA WIDTH HEIGHT (0, 0, 0, 0))
  have hoverlay : (overlay_drawn renderOp cosQ sinQ pi fuel cfg).width = 1200 ∧
      (overlay_drawn renderOp cosQ sinQ pi fuel cfg).height = 630 := ⟨hover0.1, hover0.2⟩
  have hcomp1 : (img_after_overlay renderOp cosQ sinQ pi fuel cfg).width = 1200 ∧
      (img_after_overlay renderOp cosQ sinQ pi fuel cfg).height = 630 := ⟨rfl, rfl⟩
  have hbar0 := applyOps_dims renderOp h
    [DrawOp.rectangle ((0, 0), ((WIDTH : ℚ), 8)) (rgb cfg.accent_color)]
    (img_after_overlay renderOp cosQ sinQ pi fuel cfg)
  have hbar : (img_after_bar renderOp cosQ sinQ pi fuel cfg).width = 1200 ∧
      (img_after_bar renderOp cosQ sinQ pi fuel cfg).height = 630 :=
    ⟨hbar0.1.trans hcomp1.1, hbar0.2.trans hcomp1.2⟩
  have htl0 := applyOps_dims renderOp h (titleLayerOps fontsAvailable cfg)
    (imageNewRGBA WIDTH HEIGHT (0, 0, 0, 0))
  have htl : (title_layer renderOp fontsAvailable cfg).width = 1200 ∧
      (title_layer renderOp fontsAvailable cfg).height = 630 := ⟨htl0.1, htl0.2⟩
  have hti : (img_after_title renderOp cosQ sinQ pi fuel fontsAvailable cfg).width = 1200 ∧
      (img_after_title renderOp cosQ sinQ pi fuel fontsAvailable cfg).height = 630 :=
    ⟨hbar.1, hbar.2⟩
  have hstale0 := applyOps_dims renderOp h
    [DrawOp.rectangle ((80, (HEIGHT : ℚ) - 100 - 45), (120, (HEIGHT : ℚ) - 100 - 5))
      (rgb cfg.accent_color)]
    (img_after_bar renderOp cosQ sinQ pi fuel cfg)
  have hstale : (stale_square_draw renderOp cosQ sinQ pi fuel cfg).width = 1200 ∧
      (stale_square_draw renderOp cosQ sinQ pi fuel cfg).height = 630 :=
    ⟨hstale0.1.trans hbar.1, hstale0.2.trans hbar.2⟩
  have hdl0 := applyOps_dims renderOp h (domainLayerOps fontsAvailable cfg)
    (imageNewRGBA WIDTH HEIGHT (0, 0, 0, 0))
  have hdl : (domain_layer renderOp fontsAvailable cfg).width = 1200 ∧
      (domain_layer renderOp fontsAvailable cfg).height = 630 := ⟨hdl0.1, hdl0.2⟩
  rcases hsub : cfg.subtitle with _ | s
  all_goals {
    have hsubst : (img_after_subtitle renderOp cosQ sinQ pi fuel fontsAvailable cfg).width = 1200 ∧
        (img_after_subtitle renderOp cosQ sinQ pi fuel fontsAvailable cfg).height = 630 := by
      simp only [img_after_subtitle, hsub]
      exact ⟨hti.1, hti.2⟩
    have hdom : (img_after_domain renderOp cosQ sinQ pi fuel fontsAvailable cfg).width = 1200 ∧
        (img_after_domain renderOp cosQ sinQ pi fuel fontsAvailable cfg).height = 630 :=
      ⟨hsubst.1, hsubst.2⟩
    have hgen : (generate_og_image renderOp cosQ sinQ pi fuel fontsAvailable cfg rng).width = 1200 ∧
        (generate_og_image renderOp cosQ sinQ pi fuel fontsAvailable cfg rng).height = 630 :=
      ⟨hdom.1, hdom.2⟩
    intro img hm
    simp only [generateStages, hsub, List.append_assoc, List.mem_append, List.mem_cons,
      List.not_mem_nil, or_false, false_or, List.mem_singleton, or_assoc] at hm
    first
    | (rcases hm with rfl | rfl | rfl | rfl | rfl | rfl | rfl | rfl | rfl | rfl <;>
        first
          | exact ⟨rfl, rfl⟩
          | exact hoverlay
          | exact hbar
          | exact htl
          | exact hti
          | exact hstale
          | exact hdl
          | exact hdom
          | exact hgen
          | exact hsubst)
    | (rcases hm with rfl | rfl | rfl | rfl | rfl | rfl | rfl | rfl | rfl | rfl | rfl | rfl <;>
        first
          | exact ⟨rfl, rfl⟩
          | exact hoverlay
          | exact hbar
          | exact htl
          | exact hti
          | exact hstale
          | exact hdl
          | exact hdom
          | exact hgen
          | exact hsubst
          | exact ⟨htl0.1, htl0.2⟩
          | (exact (applyOps_dims renderOp h (subtitleLayerOps fontsAvailable cfg s)
              (imageNewRGBA WIDTH HEIGHT (0, 0, 0, 0))))) }

/-- C5 — Two executions of the pipeline with different random streams agree
on every stage prior to grain application; the output differs from the
pre-grain composite only by the grain pass. -/
theorem pipeline_deterministic_except_grain (renderOp : DrawOp → Img → Img)
    (cosQ sinQ : ℚ → ℚ) (pi : ℚ) (fuel : ℕ) (fontsAvailable : Bool) (cfg : Config)
    (rng₁ rng₂ : ℕ → ℚ) :
    (generateStages renderOp cosQ sinQ pi fuel fontsAvailable cfg rng₁).dropLast =
      (generateStages renderOp cosQ sinQ pi fuel fontsAvailable cfg rng₂).dropLast ∧
    generate_og_image renderOp cosQ sinQ pi fuel fontsAvailable cfg rng₁ =
      add_grain_texture_fn
        (img_after_domain renderOp cosQ sinQ pi fuel fontsAvailable cfg) rng₁ (12/100) := by
  refine ⟨?_, rfl⟩
  rcases hsub : cfg.subtitle with _ | s <;>
    · simp only [generateStages, hsub]
      rfl

/-- C10 — Every image constructed at any stage of `generate_og_image` (base,
drawn overlay, every composite, every text layer, the stale draw target and
the grain output) has exactly the fixed 1200×630 dimensions, provided the
rasterizer draws in place (preserves the target's dimensions). -/
theorem generate_og_image_all_stages_1200x630 (renderOp : DrawOp → Img → Img)
    (cosQ sinQ : ℚ → ℚ) (pi : ℚ) (fuel : ℕ) (fontsAvailable : Bool) (cfg : Config)
    (rng : ℕ → ℚ)
    (h : ∀ op i, (renderOp op i).width = i.width ∧ (renderOp op i).height = i.height) :
    ∀ img ∈ generateStages renderOp cosQ sinQ pi fuel fontsAvailable cfg rng,
      img.width = 1200 ∧ img.height = 630 :=
  generateStages_dims renderOp cosQ sinQ pi fuel fontsAvailable cfg rng h

/-- Witness for C10: the identity rasterizer, a concrete config and stream;
the base stage of the run has the fixed dimensions. -/
theorem generate_og_image_all_stages_1200x630_witness :
    (∀ (op : DrawOp) (i : Img),
        ((fun (_ : DrawOp) (i : Img) => i) op i).width = i.width ∧
        ((fun (_ : DrawOp) (i : Img) => i) op i).height = i.height) ∧
    (base_img ⟨"Ben Siverly", some "Product Manager, Builder, Gardener", colors_yellow,
        colors_warm, "circles", 84, "./images/og-home.png"⟩).width = 1200 ∧
    (base_img ⟨"Ben Siverly", some "Product Manager, Builder, Gardener", colors_yellow,
        colors_warm, "circles", 84, "./images/og-home.png"⟩).height = 630 := by
  refine ⟨fun op i => ⟨rfl, rfl⟩, ?_⟩
  have hmem : base_img ⟨"Ben Siverly", some "Product Manager, Builder, Gardener",
      colors_yellow, colors_warm, "circles", 84, "./images/og-home.png"⟩ ∈
      generateStages (fun _ i => i) (fun _ => 0) (fun _ => 0) (314159/100000) 1000 true
        ⟨"Ben Siverly", some "Product Manager, Builder, Gardener", colors_yellow,
          colors_warm, "circles", 84, "./images/og-home.png"⟩ (fun _ => 0) := by
    simp [generateStages]
  exact generate_og_image_all_stages_1200x630 (fun _ i => i) (fun _ => 0) (fun _ => 0)
    (314159/100000) 1000 true
    ⟨"Ben Siverly", some "Product Manager, Builder, Gardener", colors_yellow,
      colors_warm, "circles", 84, "./images/og-home.png"⟩ (fun _ => 0)
    (fun op i => ⟨rfl, rfl⟩) _ hmem

/-- The layout-relevant projection of a draw call: position and string of a
text op (its font and fill are the visual-fidelity part). -/
def opTextInfo : DrawOp → Option ((ℚ × ℚ) × String)
  | DrawOp.text pos s _ _ => some (pos, s)
  | _ => none

lemma generate_og_image_mem_stages (renderOp : DrawOp → Img → Img) (cosQ sinQ : ℚ → ℚ)
    (pi : ℚ) (fuel : ℕ) (fontsAvailable : Bool) (cfg : Config) (rng : ℕ → ℚ) :
    generate_og_image renderOp cosQ sinQ pi fuel fontsAvailable cfg rng ∈
      generateStages renderOp cosQ sinQ pi fuel fontsAvailable cfg rng := by
  rcases hsub : cfg.subtitle with _ | s <;> simp [generateStages, hsub]

/-- C6 — If the truetype font paths fail to load, `generate_og_image` does not
raise (the except-branch substitutes the default font) and the run has the
same layout as the preferred-font run: same output dimensions, and every text
layer draws the same strings at the same coordinates (only the font handle in
the ops differs). -/
theorem font_fallback_preserves_layout (renderOp : DrawOp → Img → Img)
    (cosQ sinQ : ℚ → ℚ) (pi : ℚ) (fuel : ℕ) (cfg : Config) (rng : ℕ → ℚ) (s : String)
    (h : ∀ op i, (renderOp op i).width = i.width ∧ (renderOp op i).height = i.height) :
    (generate_og_image renderOp cosQ sinQ pi fuel true cfg rng).width =
      (generate_og_image renderOp cosQ sinQ pi fuel false cfg rng).width ∧
    (generate_og_image renderOp cosQ sinQ pi fuel true cfg rng).height =
      (generate_og_image renderOp cosQ sinQ pi fuel false cfg rng).height ∧
    (titleLayerOps true cfg).filterMap opTextInfo =
      (titleLayerOps false cfg).filterMap opTextInfo ∧
    (subtitleLayerOps true cfg s).filterMap opTextInfo =
      (subtitleLayerOps false cfg s).filterMap opTextInfo ∧
    (domainLayerOps true cfg).filterMap opTextInfo =
      (domainLayerOps false cfg).filterMap opTextInfo := by
  have ht := generateStages_dims renderOp cosQ sinQ pi fuel true cfg rng h
    (generate_og_image renderOp cosQ sinQ pi fuel true cfg rng)
    (generate_og_image_mem_stages renderOp cosQ sinQ pi fuel true cfg rng)
  have hf := generateStages_dims renderOp cosQ sinQ pi fuel false cfg rng h
    (generate_og_image renderOp cosQ sinQ pi fuel false cfg rng)
    (generate_og_image_mem_stages renderOp cosQ sinQ pi fuel false cfg rng)
  refine ⟨ht.1.trans hf.1.symm, ht.2.trans hf.2.symm, ?_, rfl, rfl⟩
  simp [titleLayerOps, draw_chromatic_text, opTextInfo]

/-- Witness for C6: identity rasterizer, the home-page config, zero trig
stubs and stream. -/
theorem font_fallback_preserves_layout_witness :
    (∀ (op : DrawOp) (i : Img),
        ((fun (_ : DrawOp) (i : Img) => i) op i).width = i.width ∧
        ((fun (_ : DrawOp) (i : Img) => i) op i).height = i.height) ∧
    (titleLayerOps true ⟨"Ben Siverly", some "Product Manager, Builder, Gardener",
        colors_yellow, colors_warm, "circles", 84, "./images/og-home.png"⟩).filterMap
        opTextInfo =
      (titleLayerOps false ⟨"Ben Siverly", some "Product Manager, Builder, Gardener",
        colors_yellow, colors_warm, "circles", 84, "./images/og-home.png"⟩).filterMap
        opTextInfo := by
  refine ⟨fun op i => ⟨rfl, rfl⟩, ?_⟩
  exact (font_fallback_preserves_layout (fun _ i => i) (fun _ => 0) (fun _ => 0)
    (314159/100000) 1000
    ⟨"Ben Siverly", some "Product Manager, Builder, Gardener", colors_yellow,
      colors_warm, "circles", 84, "./images/og-home.png"⟩ (fun _ => 0)
    "Product Manager, Builder, Gardener" (fun op i => ⟨rfl, rfl⟩)).2.2.1

/-- C9 — With a subtitle configured, the pipeline builds a subtitle layer
whose single text op sits at `(80, title_y + title_size + 30)` with
`title_y = 120`, and that layer is one of the run's stages; without a
subtitle, the run coincides with the pipeline that has the subtitle branch
deleted. -/
theorem subtitle_layout_and_optional_skip (renderOp : DrawOp → Img → Img)
    (cosQ sinQ : ℚ → ℚ) (pi : ℚ) (fuel : ℕ) (fontsAvailable : Bool) (cfg : Config)
    (rng : ℕ → ℚ) :
    (∀ s, cfg.subtitle = some s →
      subtitle_layer renderOp fontsAvailable cfg s ∈
        generateStages renderOp cosQ sinQ pi fuel fontsAvailable cfg rng ∧
      subtitle_layer renderOp fontsAvailable cfg s =
        applyOps renderOp (imageNewRGBA WIDTH HEIGHT (0, 0, 0, 0))
          [DrawOp.text (80, 120 + (cfg.title_size : ℚ) + 30) s (rgba colors_dark 150)
            (loadFonts fontsAvailable cfg.title_size).2.1]) ∧
    (cfg.subtitle = none →
      generate_og_image renderOp cosQ sinQ pi fuel fontsAvailable cfg rng =
        generate_og_image_no_subtitle_branch renderOp cosQ sinQ pi fuel fontsAvailable
          cfg rng) := by
  constructor
  · intro s hs
    constructor
    · simp [generateStages, hs]
    · rfl
  · intro hn
    simp only [generate_og_image, generate_og_image_no_subtitle_branch, img_after_domain,
      img_after_subtitle, hn]

/-- Witness for C9: the home config (subtitle present) exercises the first
part; the same config with the subtitle removed exercises the skip part. -/
theorem subtitle_layout_and_optional_skip_witness :
    (⟨"Ben Siverly", some "Product Manager, Builder, Gardener", colors_yellow,
        colors_warm, "circles", 84, "./images/og-home.png"⟩ : Config).subtitle =
      some "Product Manager, Builder, Gardener" ∧
    subtitle_layer (fun _ i => i) true
        ⟨"Ben Siverly", some "Product Manager, Builder, Gardener", colors_yellow,
          colors_warm, "circles", 84, "./images/og-home.png"⟩
        "Product Manager, Builder, Gardener" ∈
      generateStages (fun _ i => i) (fun _ => 0) (fun _ => 0) (314159/100000) 1000 true
        ⟨"Ben Siverly", some "Product Manager, Builder, Gardener", colors_yellow,
          colors_warm, "circles", 84, "./images/og-home.png"⟩ (fun _ => 0) ∧
    (⟨"Ben Siverly", none, colors_yellow, colors_warm, "circles", 84,
        "./images/og-home.png"⟩ : Config).subtitle = none ∧
    generate_og_image (fun _ i => i) (fun _ => 0) (fun _ => 0) (314159/100000) 1000 true
        ⟨"Ben Siverly", none, colors_yellow, colors_warm, "circles", 84,
          "./images/og-home.png"⟩ (fun _ => 0) =
      generate_og_image_no_subtitle_branch (fun _ i => i) (fun _ => 0) (fun _ => 0)
        (314159/100000) 1000 true
        ⟨"Ben Siverly", none, colors_yellow, colors_warm, "circles", 84,
          "./images/og-home.png"⟩ (fun _ => 0) := by
  refine ⟨rfl, ?_, rfl, ?_⟩
  · exact ((subtitle_layout_and_optional_skip (fun _ i => i) (fun _ => 0) (fun _ => 0)
      (314159/100000) 1000 true
      ⟨"Ben Siverly", some "Product Manager, Builder, Gardener", colors_yellow,
        colors_warm, "circles", 84, "./images/og-home.png"⟩ (fun _ => 0)).1
      "Product Manager, Builder, Gardener" rfl).1
  · exact (subtitle_layout_and_optional_skip (fun _ i => i) (fun _ => 0) (fun _ => 0)
      (314159/100000) 1000 true
      ⟨"Ben Siverly", none, colors_yellow, colors_warm, "circles", 84,
        "./images/og-home.png"⟩ (fun _ => 0)).2 rfl

/-- Modelled from the spec: the mesh-gradient generator (variant B) is not in
the repository source, only described in the spec.  A gradient anchor:
`{position: (x,y), color: Color, radius: number}`. -/
structure GradientPoint where
  pos : ℚ × ℚ
  color : Pix3
  radius : ℚ

/-- Modelled from the spec: `weight = 1/(distance + point.radius)`.  The
Euclidean distance is abstracted as a nonnegative function `distFn`, since
its float value is an unspecified nonnegative rational. -/
def meshWeight (distFn : (ℚ × ℚ) → (ℚ × ℚ) → ℚ) (p : ℚ × ℚ) (g : GradientPoint) : ℚ :=
  1 / (distFn p g.pos + g.radius)

/-- Modelled from the spec: per pixel, accumulate weighted sums of each
channel and of total weight; `final channel = round(weighted_sum/total_weight)`. -/
def meshPixel (distFn : (ℚ × ℚ) → (ℚ × ℚ) → ℚ) (points : List GradientPoint)
    (p : ℚ × ℚ) : Pix3 :=
  let total := (points.map (meshWeight distFn p)).sum
  ( round ((points.map fun g => meshWeight distFn p g * (g.color.1 : ℚ)).sum / total),
    round ((points.map fun g => meshWeight distFn p g * (g.color.2.1 : ℚ)).sum / total),
    round ((points.map fun g => meshWeight distFn p g * (g.color.2.2 : ℚ)).sum / total) )

lemma round_le_round (x y : ℚ) (h : x ≤ y) : round x ≤ round y := by
  rw [round_eq, round_eq]
  exact Int.floor_le_floor (by linarith)

lemma mesh_channel_bounds (distFn : (ℚ × ℚ) → (ℚ × ℚ) → ℚ)
    (points : List GradientPoint) (p : ℚ × ℚ) (c : GradientPoint → ℤ) (lo hi : ℤ)
    (hd : ∀ a b, 0 ≤ distFn a b) (hr : ∀ g ∈ points, 0 < g.radius)
    (hne : points ≠ []) (hlo : ∀ g ∈ points, lo ≤ c g) (hhi : ∀ g ∈ points, c g ≤ hi) :
    lo ≤ round ((points.map fun g => meshWeight distFn p g * (c g : ℚ)).sum /
        (points.map (meshWeight distFn p)).sum) ∧
      round ((points.map fun g => meshWeight distFn p g * (c g : ℚ)).sum /
        (points.map (meshWeight distFn p)).sum) ≤ hi := by
  have hwpos : ∀ g ∈ points, 0 < meshWeight distFn p g := by
    intro g hg
    have h1 := hd p g.pos
    have h2 := hr g hg
    exact one_div_pos.mpr (by linarith)
  have htw : 0 < (points.map (meshWeight distFn p)).sum := by
    refine List.sum_pos _ ?_ ?_
    · intro x hx
      obtain ⟨g, hg, rfl⟩ := List.mem_map.1 hx
      exact hwpos g hg
    · simpa using hne
  have hupper : (points.map fun g => meshWeight distFn p g * (c g : ℚ)).sum ≤
      (hi : ℚ) * (points.map (meshWeight distFn p)).sum := by
    have h1 : (points.map fun g => meshWeight distFn p g * (c g : ℚ)).sum ≤
        (points.map fun g => meshWeight distFn p g * (hi : ℚ)).sum := by
      refine List.sum_le_sum ?_
      intro g hg
      exact mul_le_mul_of_nonneg_left (by exact_mod_cast hhi g hg) (hwpos g hg).le
    have h2 : (points.map fun g => meshWeight distFn p g * (hi : ℚ)).sum =
        (points.map (meshWeight distFn p)).sum * (hi : ℚ) := List.sum_map_mul_right _ _ _
    calc (points.map fun g => meshWeight distFn p g * (c g : ℚ)).sum
        ≤ (points.map fun g => meshWeight distFn p g * (hi : ℚ)).sum := h1
      _ = (hi : ℚ) * (points.map (meshWeight distFn p)).sum := by rw [h2]; ring
  have hlower : (lo : ℚ) * (points.map (meshWeight distFn p)).sum ≤
      (points.map fun g => meshWeight distFn p g * (c g : ℚ)).sum := by
    have h1 : (points.map fun g => meshWeight distFn p g * (lo : ℚ)).sum ≤
        (points.map fun g => meshWeight distFn p g * (c g : ℚ)).sum := by
      refine List.sum_le_sum ?_
      intro g hg
      exact mul_le_mul_of_nonneg_left (by exact_mod_cast hlo g hg) (hwpos g hg).le
    have h2 : (points.map fun g => meshWeight distFn p g * (lo : ℚ)).sum =
        (points.map (meshWeight distFn p)).sum * (lo : ℚ) := List.sum_map_mul_right _ _ _
    calc (lo : ℚ) * (points.map (meshWeight distFn p)).sum
        = (points.map fun g => meshWeight distFn p g * (lo : ℚ)).sum := by rw [h2]; ring
      _ ≤ _ := h1
  have hdivhi : (points.map fun g => meshWeight distFn p g * (c g : ℚ)).sum /
      (points.map (meshWeight distFn p)).sum ≤ (hi : ℚ) :=
    (div_le_iff₀ htw).mpr hupper
  have hdivlo : (lo : ℚ) ≤ (points.map fun g => meshWeight distFn p g * (c g : ℚ)).sum /
      (points.map (meshWeight distFn p)).sum :=
    (le_div_iff₀ htw).mpr hlower
  constructor
  · have hround := round_le_round _ _ hdivlo
    rwa [round_intCast] at hround
  · have hround := round_le_round _ _ hdivhi
    rwa [round_intCast] at hround

/-- C3 — Modelled from the spec (the mesh-gradient code is not in the
repository source): every output channel of the inverse-distance-weighted
blend is a convex combination of the anchors' values of that same channel,
hence lies between any lower and upper bound of that channel alone over all
gradient points — in particular between that channel's minimum and maximum.
The three channels take independent bounds `loR/hiR`, `loG/hiG`, `loB/hiB`. -/
theorem meshPixel_convex_combination (distFn : (ℚ × ℚ) → (ℚ × ℚ) → ℚ)
    (points : List GradientPoint) (p : ℚ × ℚ) (loR hiR loG hiG loB hiB : ℤ)
    (hd : ∀ a b, 0 ≤ distFn a b) (hr : ∀ g ∈ points, 0 < g.radius) (hne : points ≠ [])
    (hloR : ∀ g ∈ points, loR ≤ g.color.1) (hhiR : ∀ g ∈ points, g.color.1 ≤ hiR)
    (hloG : ∀ g ∈ points, loG ≤ g.color.2.1) (hhiG : ∀ g ∈ points, g.color.2.1 ≤ hiG)
    (hloB : ∀ g ∈ points, loB ≤ g.color.2.2) (hhiB : ∀ g ∈ points, g.color.2.2 ≤ hiB) :
    (loR ≤ (meshPixel distFn points p).1 ∧ (meshPixel distFn points p).1 ≤ hiR) ∧
    (loG ≤ (meshPixel distFn points p).2.1 ∧ (meshPixel distFn points p).2.1 ≤ hiG) ∧
    (loB ≤ (meshPixel distFn points p).2.2 ∧ (meshPixel distFn points p).2.2 ≤ hiB) :=
  ⟨mesh_channel_bounds distFn points p (fun g => g.color.1) loR hiR hd hr hne hloR hhiR,
   mesh_channel_bounds distFn points p (fun g => g.color.2.1) loG hiG hd hr hne hloG hhiG,
   mesh_channel_bounds distFn points p (fun g => g.color.2.2) loB hiB hd hr hne hloB hhiB⟩

/-- Witness for C3: two concrete anchors, the zero distance function, and the
per-channel minima and maxima of the anchor colors: R ∈ [100,200],
G ∈ [50,60], B ∈ [5,25]. -/
theorem meshPixel_convex_combination_witness :
    (∀ a b : ℚ × ℚ, 0 ≤ (fun (_ _ : ℚ × ℚ) => (0 : ℚ)) a b) ∧
    (∀ g ∈ [GradientPoint.mk (0, 0) (100, 50, 25) 1,
            GradientPoint.mk (3, 4) (200, 60, 5) 2], 0 < g.radius) ∧
    ([GradientPoint.mk (0, 0) (100, 50, 25) 1,
      GradientPoint.mk (3, 4) (200, 60, 5) 2] ≠ []) ∧
    ((100 ≤ (meshPixel (fun _ _ => 0)
        [GradientPoint.mk (0, 0) (100, 50, 25) 1,
         GradientPoint.mk (3, 4) (200, 60, 5) 2] (1, 1)).1 ∧
      (meshPixel (fun _ _ => 0)
        [GradientPoint.mk (0, 0) (100, 50, 25) 1,
         GradientPoint.mk (3, 4) (200, 60, 5) 2] (1, 1)).1 ≤ 200) ∧
     (50 ≤ (meshPixel (fun _ _ => 0)
        [GradientPoint.mk (0, 0) (100, 50, 25) 1,
         GradientPoint.mk (3, 4) (200, 60, 5) 2] (1, 1)).2.1 ∧
      (meshPixel (fun _ _ => 0)
        [GradientPoint.mk (0, 0) (100, 50, 25) 1,
         GradientPoint.mk (3, 4) (200, 60, 5) 2] (1, 1)).2.1 ≤ 60) ∧
     (5 ≤ (meshPixel (fun _ _ => 0)
        [GradientPoint.mk (0, 0) (100, 50, 25) 1,
         GradientPoint.mk (3, 4) (200, 60, 5) 2] (1, 1)).2.2 ∧
      (meshPixel (fun _ _ => 0)
        [GradientPoint.mk (0, 0) (100, 50, 25) 1,
         GradientPoint.mk (3, 4) (200, 60, 5) 2] (1, 1)).2.2 ≤ 25)) := by
  refine ⟨fun a b => le_refl 0, ?_, by simp, ?_⟩
  · intro g hg
    rcases List.mem_cons.mp hg with rfl | hg
    · norm_num
    rcases List.mem_cons.mp hg with rfl | hg
    · norm_num
    · simp at hg
  · refine meshPixel_convex_combination (fun _ _ => 0)
      [GradientPoint.mk (0, 0) (100, 50, 25) 1,
       GradientPoint.mk (3, 4) (200, 60, 5) 2] (1, 1) 100 200 50 60 5 25
      (fun a b => le_refl 0) ?_ (by simp) ?_ ?_ ?_ ?_ ?_ ?_ <;>
      · intro g hg
        rcases List.mem_cons.mp hg with rfl | hg
        · norm_num
        rcases List.mem_cons.mp hg with rfl | hg
        · norm_num
        · simp at hg
